import Mathlib

/-
Verification of the email-migration pipeline (Outlook → Asana integration).

Shallow embedding of src/asana_outlook_integration_script.py and the
paginated fetcher of src/email_analytics.py.  External effects (Graph and
Asana REST calls, the file system) are modelled by explicit environments
(`ProcEnv`), result values (`Except`), and event traces; the pure string
processing (Python `str.strip`, `str.lower`, `int(...)`, substring tests)
is embedded directly.
-/

namespace EmailMigration

variable {α ε : Type}

/-- Characters removed by Python str.strip / str.lstrip with no argument. -/
def isPySpace (c : Char) : Bool :=
  c == ' ' || c == '\t' || c == '\n' || c == '\r' || c == '\x0b' || c == '\x0c'

/-- Python s.lstrip(). -/
def pyLstrip (s : String) : String := String.mk (s.data.dropWhile isPySpace)

/-- Python s.strip(). -/
def pyStrip (s : String) : String :=
  String.mk (((s.data.dropWhile isPySpace).reverse.dropWhile isPySpace).reverse)

/-- ASCII lowering of one character (model of Python str.lower on ASCII data). -/
def asciiLowerChar (c : Char) : Char :=
  if 'A' ≤ c ∧ c ≤ 'Z' then Char.ofNat (c.toNat + 32) else c

/-- Python s.lower() restricted to ASCII case mapping. -/
def pyLower (s : String) : String := String.mk (s.data.map asciiLowerChar)

def listIsPrefixOf : List Char → List Char → Bool
  | [], _ => true
  | _ :: _, [] => false
  | a :: as, b :: bs => a == b && listIsPrefixOf as bs

def listIsInfixOf (needle : List Char) : List Char → Bool
  | [] => listIsPrefixOf needle []
  | b :: bs => listIsPrefixOf needle (b :: bs) || listIsInfixOf needle bs

/-- Python `needle in hay` on strings. -/
def strContains (hay needle : String) : Bool := listIsInfixOf needle.data hay.data

/-- Python s.endswith(suffix). -/
def strEndsWith (s suffix : String) : Bool :=
  listIsPrefixOf suffix.data.reverse s.data.reverse

def digitVal (c : Char) : Nat := c.toNat - 48

def parseDigitsAux : Nat → List Char → Option Nat
  | acc, [] => some acc
  | acc, '_' :: c :: rest =>
      if c.isDigit then parseDigitsAux (acc * 10 + digitVal c) rest else none
  | _, ['_'] => none
  | acc, c :: rest =>
      if c.isDigit then parseDigitsAux (acc * 10 + digitVal c) rest else none

def parseDigits : List Char → Option Nat
  | [] => none
  | c :: rest => if c.isDigit then parseDigitsAux (digitVal c) rest else none

/-- Models Python int(s) for ASCII decimal strings: surrounding whitespace is
stripped, an optional sign is allowed, then one or more decimal digits with
single underscore separators between digits; anything else raises ValueError,
modelled as `none`. -/
def pyInt (s : String) : Option Int :=
  match (pyStrip s).data with
  | '+' :: rest => (parseDigits rest).map (fun n => (n : Int))
  | '-' :: rest => (parseDigits rest).map (fun n => -(n : Int))
  | ds => (parseDigits ds).map (fun n => (n : Int))

/-- The JSON value found under the message key "body": either a JSON object
(whose "content" entry may be absent) or some non-object value. A message
with no "body" key at all is `Option.none` at the `Msg.body` field. -/
inductive BodyNode where
  | dict (content : Option String)
  | nondict
  deriving DecidableEq

/-- One attachment descriptor as consumed by process_message:
`odataType` models att.get("@odata.type", ""), `size` models
att.get("size", 0), `name` and `attId` the name/id entries. -/
structure Attachment where
  odataType : String
  size : Nat
  name : String
  attId : String
  deriving DecidableEq

/-- One fetched message record. `sender` flattens the nested
msg.get("from", \x7b\x7d).get("emailAddress", \x7b\x7d).get("address", "") chain:
`none` stands for any missing link of that chain. -/
structure Msg where
  id : String
  subject : Option String
  bodyPreview : Option String
  body : Option BodyNode
  sender : Option String
  receivedDateTime : Option String
  parentFolderId : Option String
  attachments : List Attachment
  deriving DecidableEq

/-- Body extraction of process_message: if the body node is a JSON object,
take its "content" entry with default ""; otherwise (no "body" value or a
non-object one) take `bodyPreview or ""`. -/
def extractBodyRaw (msg : Msg) : String :=
  match msg.body with
  | some (BodyNode.dict c) => c.getD ""
  | _ => msg.bodyPreview.getD ""

/-- Python body.lstrip().startswith("<"). -/
def startsWithLt (s : String) : Bool :=
  match (pyLstrip s).data with
  | '<' :: _ => true
  | _ => false

/-- HTML sanitising step of process_message. `stripMarkup` stands for
BeautifulSoup(body, "html.parser").get_text(separator="\n"). -/
def cleanBodyOf (stripMarkup : String → String) (raw : String) : String :=
  if startsWithLt raw then pyStrip (stripMarkup raw) else pyStrip raw

def extractCleanBody (stripMarkup : String → String) (msg : Msg) : String :=
  cleanBodyOf stripMarkup (extractBodyRaw msg)

/-- Section (bucket) configuration: the three optional keyword buckets and
the default; each optional entry models the corresponding environment
variable (absent → `none`, and Python truthiness makes "" count as absent). -/
structure RoutingConfig where
  budgetSectionGid : Option String
  quoteSectionGid : Option String
  orderSectionGid : Option String
  asanaSectionGid : String

/-- Python truthiness of an optional string. -/
def truthy : Option String → Bool
  | none => false
  | some s => !(s == "")

/-- The if/elif chain of process_message choosing the destination section. -/
def chooseSection (cfg : RoutingConfig) (subj : String) : String :=
  let s := pyLower subj
  if strContains s "budget" && truthy cfg.budgetSectionGid then
    cfg.budgetSectionGid.getD ""
  else if strContains s "quotation" && truthy cfg.quoteSectionGid then
    cfg.quoteSectionGid.getD ""
  else if strContains s "order confirmation" && truthy cfg.orderSectionGid then
    cfg.orderSectionGid.getD ""
  else cfg.asanaSectionGid

/-- External-effect environment for process_message: Asana task creation,
section membership, custom-field update, Graph attachment download
(failure carries the HTTP status) and Asana attachment upload. -/
structure ProcEnv (ε : Type) where
  createTask : String → String → Except ε String
  addToSection : String → String → Except ε Unit
  updateTask : String → String → Int → Except ε Unit
  download : Attachment → Except Nat Unit
  upload : String → Attachment → Except ε Unit

inductive AttachmentAction where
  | skippedItem
  | skippedTooLarge
  | skippedAfter413
  | uploaded
  | uploadFailed
  deriving DecidableEq

inductive FsEvent where
  | write (path : String)
  | remove (path : String)
  deriving DecidableEq

def tempDir : String := "temp_attachments"

def localPathOf (a : Attachment) : String := tempDir ++ "/" ++ a.name

def maxAttachmentSize : Nat := 3 * 1024 * 1024

/-- One iteration of the attachment loop of process_message: skip embedded
item attachments, skip oversize attachments, download (a 413 response is a
skip, any other HTTP error re-raises), write the bytes to the temp file,
attempt the upload (failure is caught and logged), remove the temp file. -/
def processAttachment (env : ProcEnv ε) (gid : String) (a : Attachment) :
    Except Nat (AttachmentAction × List FsEvent) :=
  if strEndsWith a.odataType "ItemAttachment" then .ok (.skippedItem, [])
  else if maxAttachmentSize < a.size then .ok (.skippedTooLarge, [])
  else
    match env.download a with
    | .error s => if s == 413 then .ok (.skippedAfter413, []) else .error s
    | .ok _ =>
      match env.upload gid a with
      | .ok _ => .ok (.uploaded, [.write (localPathOf a), .remove (localPathOf a)])
      | .error _ => .ok (.uploadFailed, [.write (localPathOf a), .remove (localPathOf a)])

/-- The whole attachment loop; a re-raised download error aborts it. -/
def processAttachments (env : ProcEnv ε) (gid : String) :
    List Attachment → Except Nat (List (String × AttachmentAction) × List FsEvent)
  | [] => .ok ([], [])
  | a :: rest =>
    match processAttachment env gid a with
    | .error s => .error s
    | .ok (act, tr) =>
      match processAttachments env gid rest with
      | .error s => .error s
      | .ok (acts, trs) => .ok ((a.name, act) :: acts, tr ++ trs)

/-- Replay a file-system trace over a list of present paths. -/
def applyFs (disk : List String) : List FsEvent → List String
  | [] => disk
  | FsEvent.write p :: rest => applyFs (disk ++ [p]) rest
  | FsEvent.remove p :: rest => applyFs (disk.filter (fun q => !(q == p))) rest

inductive ProcError (ε : Type) where
  | invalidJobNumber (s : String)
  | downloadFailed (status : Nat)
  | api (e : ε)

/-- The notes block composed by process_message. -/
def notesFor (location jobNum sender received cleanBody : String) : String :=
  "**Location:** " ++ location ++ "\n" ++ "**Job #:** " ++ jobNum ++ "\n" ++
  "**From:** " ++ sender ++ "\n" ++ "**Received:** " ++ received ++ "\n\n" ++ cleanBody

/-- Whether the add_task_for_section call succeeded; its failure is caught
and only logged, so processing continues either way. -/
def sectionAddFlag (env : ProcEnv ε) (sec gid : String) : Bool :=
  match env.addToSection sec gid with
  | .ok _ => true
  | .error _ => false

structure ProcOutcome where
  taskGid : String
  notes : String
  sectionGid : String
  sectionAddOk : Bool
  location : String
  jobNumber : Int
  attachmentResults : List (String × AttachmentAction)
  fsTrace : List FsEvent

/-- process_message: extract and sanitise the body, compose the notes, pick
the section, create the task, try to file it into the section (failure
logged, not fatal), parse the job number with int(...) and update the two
custom fields, then run the attachment loop. -/
def processMessage (env : ProcEnv ε) (cfg : RoutingConfig) (stripMarkup : String → String)
    (msg : Msg) (location jobNum : String) : Except (ProcError ε) ProcOutcome :=
  let subj := msg.subject.getD "(No Subject)"
  let received := msg.receivedDateTime.getD ""
  let sender := msg.sender.getD ""
  let body := extractCleanBody stripMarkup msg
  let notes := notesFor location jobNum sender received body
  let sec := chooseSection cfg subj
  match env.createTask subj notes with
  | .error e => .error (ProcError.api e)
  | .ok gid =>
    let sectionOk := sectionAddFlag env sec gid
    match pyInt jobNum with
    | none => .error (ProcError.invalidJobNumber jobNum)
    | some j =>
      match env.updateTask gid location j with
      | .error e => .error (ProcError.api e)
      | .ok _ =>
        match processAttachments env gid msg.attachments with
        | .error s => .error (ProcError.downloadFailed s)
        | .ok (acts, tr) =>
          .ok { taskGid := gid, notes := notes, sectionGid := sec,
                sectionAddOk := sectionOk, location := location, jobNumber := j,
                attachmentResults := acts, fsTrace := tr }

/-- Observable events of the per-message loop in main: `checked` is the
ledger membership test, `processed` a successful process_message call,
`appended` the save_processed_id append, `failed` a caught exception. -/
inductive LoopEvent where
  | checked (id : String)
  | processed (id : String)
  | appended (id : String)
  | failed (id : String)
  deriving DecidableEq

/-- The per-message loop of main over one fetched message list: a record
with no "body" key is skipped outright; otherwise the id is checked against
the loaded ledger set; unprocessed messages go through process_message and,
on success only, the ledger append. An exception is caught per message. -/
def mainLoop (done : List String) (proc : Msg → Except ε Unit) : List Msg → List LoopEvent
  | [] => []
  | m :: rest =>
    if m.body.isNone then mainLoop done proc rest
    else
      LoopEvent.checked m.id ::
        (if done.contains m.id then mainLoop done proc rest
         else
           match proc m with
           | .ok _ =>
               LoopEvent.processed m.id :: LoopEvent.appended m.id :: mainLoop done proc rest
           | .error _ => LoopEvent.failed m.id :: mainLoop done proc rest)

def appendsOf : List LoopEvent → List String
  | [] => []
  | LoopEvent.appended i :: rest => i :: appendsOf rest
  | _ :: rest => appendsOf rest

def createdOf : List LoopEvent → List String
  | [] => []
  | LoopEvent.processed i :: rest => i :: createdOf rest
  | _ :: rest => createdOf rest

/-- Content of the ledger file after a run: the appends go at the end. -/
def ledgerAfter (initialLines : List String) (tr : List LoopEvent) : List String :=
  initialLines ++ appendsOf tr

/-- The whole run: one mainLoop per discovered folder (each folder carries
its own process_message closure, since loc/job differ per folder). -/
def fullRun (done : List String) (folders : List ((Msg → Except ε Unit) × List Msg)) :
    List LoopEvent :=
  (folders.map (fun fp => mainLoop done fp.1 fp.2)).flatten

/-- Every ledger append in the trace immediately follows the successful
processing of the same message id. -/
def appendsAfterProcessed : List LoopEvent → Bool
  | [] => true
  | LoopEvent.appended _ :: _ => false
  | LoopEvent.processed i :: LoopEvent.appended j :: rest =>
      i == j && appendsAfterProcessed rest
  | _ :: rest => appendsAfterProcessed rest

/-- A mail folder node: id, display name, child folders. -/
inductive Folder where
  | mk (id : String) (name : String) (children : List Folder)

def Folder.id : Folder → String
  | .mk i _ _ => i

def Folder.name : Folder → String
  | .mk _ n _ => n

def Folder.children : Folder → List Folder
  | .mk _ _ c => c

/-- The walk of get_target_folder_id: at each path segment list the current
child collection, take the first folder whose displayName equals the
segment, or raise naming the segment. -/
def resolveFrom : Option String → List Folder → List String → Except String (Option String)
  | fid, _, [] => .ok fid
  | _, items, part :: rest =>
    match items.find? (fun f => f.name == part) with
    | none => .error part
    | some f => resolveFrom (some f.id) f.children rest

def getTargetFolderId (roots : List Folder) (path : List String) :
    Except String (Option String) :=
  resolveFrom none roots path

/-- The tree contains the exact chain of segments `path` ending at a folder
with id `d`. -/
def containsChainTo : List Folder → List String → String → Bool
  | _, [], _ => false
  | items, [p], d => items.any (fun f => f.name == p && f.id == d)
  | items, p :: q :: rest, d =>
      items.any (fun f => f.name == p && containsChainTo f.children (q :: rest) d)

def matchCount (items : List Folder) (p : String) : Nat :=
  items.countP (fun f => f.name == p)

/-- Along the path, each visited level has at most one folder whose name
matches the segment. -/
def uniqueAlong : List Folder → List String → Bool
  | _, [] => true
  | items, p :: rest =>
      decide (matchCount items p ≤ 1) &&
        items.all (fun f => !(f.name == p) || uniqueAlong f.children rest)

/-- One page of a paginated Graph response: the "value" records and the
optional "@odata.nextLink" continuation token. -/
structure Page (α : Type) where
  value : List α
  nextLink : Option String

/-- One issued request of the fetch loop: whether the query parameters were
sent, and the records taken (after per-record enrichment) from the page. -/
structure FetchStep (α : Type) where
  sentParams : Bool
  records : List α

/-- The while loop of fetch_inbox_messages over the successive server
responses: parameters only on the first call, then follow the continuation
token until a response carries none. `enrich` stands for the per-record
enrichment (folder-path tagging and the attachment sub-request). -/
def fetchRun (enrich : α → α) : Bool → List (Page α) → List (FetchStep α)
  | _, [] => []
  | first, p :: rest =>
    { sentParams := first, records := p.value.map enrich } ::
      (match p.nextLink with
       | none => []
       | some _ => fetchRun enrich false rest)

def recordsOf (steps : List (FetchStep α)) : List α :=
  (steps.map FetchStep.records).flatten

def fetchedRecords (enrich : α → α) (pages : List (Page α)) : List α :=
  recordsOf (fetchRun enrich true pages)

/-- The response stream is a proper chain: every page but the last carries
a continuation token and the last does not. -/
def tokenChain : List (Page α) → Bool
  | [] => false
  | [p] => p.nextLink.isNone
  | p :: q :: rest => p.nextLink.isSome && tokenChain (q :: rest)


/-! Helper lemmas about the per-message loop. -/

theorem mainLoop_cons_skip (done : List String) (proc : Msg → Except ε Unit)
    (m : Msg) (rest : List Msg) (hb : m.body.isNone = true) :
    mainLoop done proc (m :: rest) = mainLoop done proc rest := by
  rw [mainLoop, if_pos hb]

theorem mainLoop_cons_done (done : List String) (proc : Msg → Except ε Unit)
    (m : Msg) (rest : List Msg) (hb : m.body.isNone = false)
    (hd : done.contains m.id = true) :
    mainLoop done proc (m :: rest) =
      LoopEvent.checked m.id :: mainLoop done proc rest := by
  rw [mainLoop, if_neg (by simp [hb]), if_pos hd]

theorem mainLoop_cons_ok (done : List String) (proc : Msg → Except ε Unit)
    (m : Msg) (rest : List Msg) (u : Unit) (hb : m.body.isNone = false)
    (hd : done.contains m.id = false) (hp : proc m = .ok u) :
    mainLoop done proc (m :: rest) =
      LoopEvent.checked m.id :: LoopEvent.processed m.id ::
        LoopEvent.appended m.id :: mainLoop done proc rest := by
  rw [mainLoop, if_neg (by simp [hb]), if_neg (by rw [hd]; exact Bool.false_ne_true), hp]

theorem mainLoop_cons_err (done : List String) (proc : Msg → Except ε Unit)
    (m : Msg) (rest : List Msg) (e : ε) (hb : m.body.isNone = false)
    (hd : done.contains m.id = false) (hp : proc m = .error e) :
    mainLoop done proc (m :: rest) =
      LoopEvent.checked m.id :: LoopEvent.failed m.id :: mainLoop done proc rest := by
  rw [mainLoop, if_neg (by simp [hb]), if_neg (by rw [hd]; exact Bool.false_ne_true), hp]

theorem appendsOf_append (l1 l2 : List LoopEvent) :
    appendsOf (l1 ++ l2) = appendsOf l1 ++ appendsOf l2 := by
  induction l1 with
  | nil => simp [appendsOf]
  | cons e rest ih => cases e <;> simp [appendsOf, ih]

theorem createdOf_append (l1 l2 : List LoopEvent) :
    createdOf (l1 ++ l2) = createdOf l1 ++ createdOf l2 := by
  induction l1 with
  | nil => simp [createdOf]
  | cons e rest ih => cases e <;> simp [createdOf, ih]

theorem mainLoop_all_done (done : List String) (proc : Msg → Except ε Unit)
    (msgs : List Msg) (h : ∀ m ∈ msgs, done.contains m.id = true) :
    createdOf (mainLoop done proc msgs) = [] ∧
      appendsOf (mainLoop done proc msgs) = [] := by
  induction msgs with
  | nil => simp [mainLoop, createdOf, appendsOf]
  | cons m rest ih =>
    have hm : done.contains m.id = true := h m (by simp)
    have hrest := ih (fun x hx => h x (by simp [hx]))
    cases hb : m.body.isNone with
    | true => rw [mainLoop_cons_skip done proc m rest hb]; exact hrest
    | false =>
      rw [mainLoop_cons_done done proc m rest hb hm]
      simpa [createdOf, appendsOf] using hrest

/-- C1: with every fetched message identifier already in the loaded ledger
set, the whole run creates no destination task and performs no ledger
append, so the ledger file is unchanged; and any single message whose id is
in the ledger set contributes no task and no append to the trace. -/
theorem c1_idempotent_rerun : ∀ (ε : Type) (done init : List String)
    (folders : List ((Msg → Except ε Unit) × List Msg)),
    (∀ fp ∈ folders, ∀ m ∈ fp.2, done.contains m.id = true) →
    (createdOf (fullRun done folders) = [] ∧
     appendsOf (fullRun done folders) = [] ∧
     ledgerAfter init (fullRun done folders) = init) ∧
    (∀ (proc : Msg → Except ε Unit) (m : Msg) (rest : List Msg),
      done.contains m.id = true →
      createdOf (mainLoop done proc (m :: rest)) = createdOf (mainLoop done proc rest) ∧
      appendsOf (mainLoop done proc (m :: rest)) = appendsOf (mainLoop done proc rest)) := by
  intro ε done init folders hall
  constructor
  · have hmain : createdOf (fullRun done folders) = [] ∧
        appendsOf (fullRun done folders) = [] := by
      induction folders with
      | nil => simp [fullRun, createdOf, appendsOf]
      | cons fp rest ih =>
        have h1 := mainLoop_all_done done fp.1 fp.2 (hall fp (by simp))
        have h2 := ih (fun q hq => hall q (by simp [hq]))
        simp only [fullRun, List.map_cons, List.flatten_cons] at h2 ⊢
        simp [createdOf_append, appendsOf_append, h1.1, h1.2, h2.1, h2.2]
    exact ⟨hmain.1, hmain.2, by simp [ledgerAfter, hmain.2]⟩
  · intro proc m rest hm
    cases hb : m.body.isNone with
    | true => rw [mainLoop_cons_skip done proc m rest hb]; exact ⟨rfl, rfl⟩
    | false =>
      rw [mainLoop_cons_done done proc m rest hb hm]
      exact ⟨rfl, rfl⟩

def msgNoBody : Msg :=
  { id := "m-1", subject := some "Budget", bodyPreview := some "p", body := none,
    sender := none, receivedDateTime := none, parentFolderId := none, attachments := [] }

def msgOkBody : Msg :=
  { id := "m-2", subject := some "hello", bodyPreview := none,
    body := some (BodyNode.dict (some "text")), sender := some "a@b.c",
    receivedDateTime := some "2024-01-01", parentFolderId := none, attachments := [] }

theorem c1_idempotent_rerun_witness :
    (createdOf (fullRun ["m-2"]
        [(fun _ : Msg => (Except.ok () : Except Unit Unit), [msgOkBody])]) = [] ∧
     appendsOf (fullRun ["m-2"]
        [(fun _ : Msg => (Except.ok () : Except Unit Unit), [msgOkBody])]) = [] ∧
     ledgerAfter ["m-2"] (fullRun ["m-2"]
        [(fun _ : Msg => (Except.ok () : Except Unit Unit), [msgOkBody])]) = ["m-2"]) ∧
    (createdOf (mainLoop ["m-2"] (fun _ : Msg => (Except.ok () : Except Unit Unit))
        [msgOkBody]) =
      createdOf (mainLoop ["m-2"] (fun _ : Msg => (Except.ok () : Except Unit Unit)) []) ∧
     appendsOf (mainLoop ["m-2"] (fun _ : Msg => (Except.ok () : Except Unit Unit))
        [msgOkBody]) =
      appendsOf (mainLoop ["m-2"] (fun _ : Msg => (Except.ok () : Except Unit Unit)) [])) := by
  have h := c1_idempotent_rerun Unit ["m-2"] ["m-2"]
      [(fun _ : Msg => (Except.ok () : Except Unit Unit), [msgOkBody])]
      (by
        intro fp hfp m hm
        rw [List.mem_singleton] at hfp
        subst hfp
        simp only [List.mem_singleton] at hm
        subst hm
        decide)
  exact ⟨h.1, h.2 (fun _ => Except.ok ()) msgOkBody [] (by decide)⟩

theorem aap_checked (i : String) (tr : List LoopEvent) :
    appendsAfterProcessed (LoopEvent.checked i :: tr) = appendsAfterProcessed tr := rfl

theorem aap_failed (i : String) (tr : List LoopEvent) :
    appendsAfterProcessed (LoopEvent.failed i :: tr) = appendsAfterProcessed tr := rfl

theorem aap_ok_pair (i j : String) (tr : List LoopEvent) :
    appendsAfterProcessed (LoopEvent.processed i :: LoopEvent.appended j :: tr) =
      (i == j && appendsAfterProcessed tr) := rfl

/-- C2: every ledger append in a loop trace immediately follows the
successful processing of the same message id (never precedes it); a
message on which process_message raises is recorded as failed, gets no
append of its own, and the loop proceeds with the remaining messages; and
every appended id comes from a message on which process_message
succeeded. -/
theorem c2_append_after_success : ∀ (ε : Type) (done : List String)
    (proc : Msg → Except ε Unit) (msgs : List Msg),
    appendsAfterProcessed (mainLoop done proc msgs) = true ∧
    (∀ (m : Msg) (rest : List Msg) (e : ε), m.body.isNone = false →
      done.contains m.id = false → proc m = .error e →
      mainLoop done proc (m :: rest) =
        LoopEvent.checked m.id :: LoopEvent.failed m.id :: mainLoop done proc rest) ∧
    (∀ i, LoopEvent.appended i ∈ mainLoop done proc msgs →
      ∃ m, m ∈ msgs ∧ m.id = i ∧ done.contains m.id = false ∧ proc m = .ok ()) := by
  intro ε done proc msgs
  refine ⟨?_, ?_, ?_⟩
  · induction msgs with
    | nil => simp [mainLoop, appendsAfterProcessed]
    | cons m rest ih =>
      cases hb : m.body.isNone with
      | true => rw [mainLoop_cons_skip done proc m rest hb]; exact ih
      | false =>
        cases hd : done.contains m.id with
        | true =>
          rw [mainLoop_cons_done done proc m rest hb hd, aap_checked]
          exact ih
        | false =>
          cases hp : proc m with
          | ok u =>
            rw [mainLoop_cons_ok done proc m rest u hb hd hp, aap_checked, aap_ok_pair]
            simpa using ih
          | error e =>
            rw [mainLoop_cons_err done proc m rest e hb hd hp, aap_checked, aap_failed]
            exact ih
  · intro m rest e hb hd hp
    exact mainLoop_cons_err done proc m rest e hb hd hp
  · induction msgs with
    | nil => intro i hi; simp [mainLoop] at hi
    | cons m rest ih =>
      intro i hi
      cases hb : m.body.isNone with
      | true =>
        rw [mainLoop_cons_skip done proc m rest hb] at hi
        obtain ⟨m', hm', rest'⟩ := ih i hi
        exact ⟨m', by simp [hm'], rest'⟩
      | false =>
        cases hd : done.contains m.id with
        | true =>
          rw [mainLoop_cons_done done proc m rest hb hd] at hi
          rcases List.mem_cons.mp hi with hcase | hcase
          · exact absurd hcase (by simp)
          · obtain ⟨m', hm', rest'⟩ := ih i hcase
            exact ⟨m', by simp [hm'], rest'⟩
        | false =>
          cases hp : proc m with
          | ok u =>
            rw [mainLoop_cons_ok done proc m rest u hb hd hp] at hi
            rcases List.mem_cons.mp hi with hcase | hcase
            · exact absurd hcase (by simp)
            · rcases List.mem_cons.mp hcase with hcase2 | hcase2
              · exact absurd hcase2 (by simp)
              · rcases List.mem_cons.mp hcase2 with hcase3 | hcase3
                · cases hcase3
                  exact ⟨m, by simp, rfl, hd, by cases u; exact hp⟩
                · obtain ⟨m', hm', rest'⟩ := ih i hcase3
                  exact ⟨m', by simp [hm'], rest'⟩
          | error e =>
            rw [mainLoop_cons_err done proc m rest e hb hd hp] at hi
            rcases List.mem_cons.mp hi with hcase | hcase
            · exact absurd hcase (by simp)
            · rcases List.mem_cons.mp hcase with hcase2 | hcase2
              · exact absurd hcase2 (by simp)
              · obtain ⟨m', hm', rest'⟩ := ih i hcase2
                exact ⟨m', by simp [hm'], rest'⟩

def msgErr : Msg :=
  { id := "m-err", subject := some "s", bodyPreview := none,
    body := some (BodyNode.dict (some "b")), sender := none,
    receivedDateTime := none, parentFolderId := none, attachments := [] }

def procW : Msg → Except String Unit :=
  fun m => if m.id == "m-err" then .error "boom" else .ok ()

theorem c2_append_after_success_witness :
    appendsAfterProcessed (mainLoop ["a"] procW [msgErr, msgOkBody]) = true ∧
    mainLoop ["a"] procW (msgErr :: [msgOkBody]) =
      LoopEvent.checked "m-err" :: LoopEvent.failed "m-err" ::
        mainLoop ["a"] procW [msgOkBody] ∧
    ∃ m, m ∈ [msgErr, msgOkBody] ∧ m.id = "m-2" ∧
      (["a"] : List String).contains m.id = false ∧ procW m = .ok () := by
  refine ⟨(c2_append_after_success String ["a"] procW [msgErr, msgOkBody]).1, ?_, ?_⟩
  · exact (c2_append_after_success String ["a"] procW [msgErr, msgOkBody]).2.1
      msgErr [msgOkBody] "boom" (by decide) (by decide) rfl
  · exact (c2_append_after_success String ["a"] procW [msgErr, msgOkBody]).2.2
      "m-2" (by decide)

/-- C10: a fetched record with no "body" field is skipped before any other
handling: for every ledger set and every processing behaviour the loop
trace and the resulting ledger are exactly those of the remaining
messages, so the record is never checked against the ledger, never
processed and never appended, on any run. -/
theorem c10_bodyless_skipped : ∀ (ε : Type) (done : List String)
    (proc : Msg → Except ε Unit) (m : Msg) (rest : List Msg),
    m.body = none →
    mainLoop done proc (m :: rest) = mainLoop done proc rest ∧
    (∀ init : List String,
      ledgerAfter init (mainLoop done proc (m :: rest)) =
        ledgerAfter init (mainLoop done proc rest)) := by
  intro ε done proc m rest h
  have hb : m.body.isNone = true := by simp [h]
  have heq := mainLoop_cons_skip done proc m rest hb
  exact ⟨heq, fun init => by rw [heq]⟩

theorem c10_bodyless_skipped_witness :
    mainLoop ([] : List String) (fun _ : Msg => (Except.ok () : Except Unit Unit))
        [msgNoBody, msgOkBody] =
      mainLoop ([] : List String) (fun _ : Msg => (Except.ok () : Except Unit Unit))
        [msgOkBody] := by
  exact (c10_bodyless_skipped Unit [] (fun _ => Except.ok ()) msgNoBody [msgOkBody] rfl).1

/-! Folder resolution (claim C3). -/

theorem countP_le_one_unique (l : List Folder) (q : Folder → Bool)
    (h : l.countP q ≤ 1) :
    ∀ f ∈ l, q f = true → ∀ g ∈ l, q g = true → f = g := by
  induction l with
  | nil => intro f hf; exact absurd hf (by simp)
  | cons a t ih =>
    intro f hf hqf g hg hqg
    rw [List.countP_cons] at h
    rcases List.mem_cons.mp hf with rfl | hf2
    · rcases List.mem_cons.mp hg with rfl | hg2
      · rfl
      · exfalso
        have h1 : 0 < t.countP q := List.countP_pos_iff.mpr ⟨g, hg2, hqg⟩
        rw [if_pos hqf] at h
        omega
    · rcases List.mem_cons.mp hg with rfl | hg2
      · exfalso
        have h1 : 0 < t.countP q := List.countP_pos_iff.mpr ⟨f, hf2, hqf⟩
        rw [if_pos hqg] at h
        omega
      · exact ih (by omega) f hf2 hqf g hg2 hqg

theorem resolveFrom_chain :
    ∀ (path : List String) (items : List Folder) (fid : Option String) (d : String),
      uniqueAlong items path = true → containsChainTo items path d = true →
      resolveFrom fid items path = .ok (some d) := by
  intro path
  induction path with
  | nil =>
    intro items fid d hu hc
    exact absurd hc (by simp [containsChainTo])
  | cons p rest ih =>
    intro items fid d hu hc
    simp only [uniqueAlong, Bool.and_eq_true, decide_eq_true_eq, List.all_eq_true] at hu
    obtain ⟨hcount, hlevels⟩ := hu
    cases rest with
    | nil =>
      simp only [containsChainTo, List.any_eq_true, Bool.and_eq_true] at hc
      obtain ⟨f, hfmem, hfname, hfid⟩ := hc
      cases hg : items.find? (fun x => x.name == p) with
      | none => exact absurd hfname (List.find?_eq_none.mp hg f hfmem)
      | some g =>
        have hgmem := List.mem_of_find?_eq_some hg
        have hgname := List.find?_some hg
        have hfg : f = g :=
          countP_le_one_unique items (fun x => x.name == p) hcount f hfmem hfname g hgmem hgname
        have hid : f.id = d := by simpa using hfid
        simp only [resolveFrom, hg]
        rw [← hfg, hid]
    | cons q rs =>
      simp only [containsChainTo, List.any_eq_true, Bool.and_eq_true] at hc
      obtain ⟨f, hfmem, hfname, hfchain⟩ := hc
      cases hg : items.find? (fun x => x.name == p) with
      | none => exact absurd hfname (List.find?_eq_none.mp hg f hfmem)
      | some g =>
        have hgmem := List.mem_of_find?_eq_some hg
        have hgname := List.find?_some hg
        have hfg : f = g :=
          countP_le_one_unique items (fun x => x.name == p) hcount f hfmem hfname g hgmem hgname
        simp only [resolveFrom, hg]
        have hnext : uniqueAlong g.children (q :: rs) = true := by
          have := hlevels g hgmem
          rw [hgname] at this
          simpa using this
        exact ih g.children (some g.id) d hnext (by rw [← hfg]; exact hfchain)

theorem resolveFrom_miss (fid : Option String) (items : List Folder) (seg : String)
    (rest : List String) (h : ∀ f ∈ items, (f.name == seg) = false) :
    resolveFrom fid items (seg :: rest) = .error seg := by
  have hnone : items.find? (fun x => x.name == seg) = none :=
    List.find?_eq_none.mpr (fun x hx => by rw [h x hx]; exact Bool.false_ne_true)
  rw [resolveFrom, hnone]

def dupNameTree : List Folder :=
  [Folder.mk "A" "x" [], Folder.mk "B" "x" [Folder.mk "C" "y" []]]

/-- C3 counterexample: the tree `dupNameTree` contains the exact chain
x / y ending at the folder with id C, yet the resolver fails: two sibling
folders are both displayed "x" and the walk follows the first one, which
has no child "y". The claim as stated (chain present implies the deepest
id is returned, over every folder tree) is therefore false. -/
theorem c3_resolver_counterexample :
    containsChainTo dupNameTree ["x", "y"] "C" = true ∧
    getTargetFolderId dupNameTree ["x", "y"] = .error "y" := by
  exact ⟨by decide, rfl⟩

/-- C3 amended: the resolver walks the path taking, at each level, the
first child whose display name equals the segment. Provided at most one
folder per visited level matches its segment, a tree containing the exact
chain makes the resolver return the deepest folder's identifier; and
whenever a segment has no matching child, the walk stops with an error
naming exactly that segment, whatever the remaining segments are (no
lookup past the miss). -/
theorem c3_resolver_amended :
    (∀ (roots : List Folder) (path : List String) (d : String),
      uniqueAlong roots path = true → containsChainTo roots path d = true →
      getTargetFolderId roots path = .ok (some d)) ∧
    (∀ (fid : Option String) (items : List Folder) (seg : String) (rest : List String),
      (∀ f ∈ items, (f.name == seg) = false) →
      resolveFrom fid items (seg :: rest) = .error seg) := by
  exact ⟨fun roots path d hu hc => resolveFrom_chain path roots none d hu hc,
         resolveFrom_miss⟩

def novaTree : List Folder :=
  [Folder.mk "fid-inbox" "Inbox"
    [Folder.mk "fid-2024" "2024 Jobs"
      [Folder.mk "fid-nova" "Nova"
        [Folder.mk "fid-2411001" "2411001" []]]]]

theorem c3_resolver_amended_witness :
    getTargetFolderId novaTree ["Inbox", "2024 Jobs", "Nova", "2411001"] =
      .ok (some "fid-2411001") ∧
    resolveFrom none novaTree ["Missing", "Nova"] = .error "Missing" := by
  refine ⟨c3_resolver_amended.1 novaTree ["Inbox", "2024 Jobs", "Nova", "2411001"]
            "fid-2411001" (by decide) (by decide),
          c3_resolver_amended.2 none novaTree "Missing" ["Nova"] (by decide)⟩

/-! Pagination (claim C4). -/

theorem fetchRun_false_params (enrich : α → α) :
    ∀ pages : List (Page α), ∀ s ∈ fetchRun enrich false pages, s.sentParams = false := by
  intro pages
  induction pages with
  | nil => intro s hs; exact absurd hs (by simp [fetchRun])
  | cons p rest ih =>
    intro s hs
    rw [fetchRun] at hs
    rcases List.mem_cons.mp hs with rfl | h2
    · rfl
    · cases hnl : p.nextLink with
      | none => rw [hnl] at h2; exact absurd h2 (by simp)
      | some nxt => rw [hnl] at h2; exact ih s h2

theorem fetchRun_chain_records (enrich : α → α) :
    ∀ (pages : List (Page α)) (first : Bool), tokenChain pages = true →
      recordsOf (fetchRun enrich first pages) = ((pages.map Page.value).flatten).map enrich := by
  intro pages
  induction pages with
  | nil => intro first h; exact absurd h (by simp [tokenChain])
  | cons p rest ih =>
    intro first h
    cases rest with
    | nil =>
      rw [tokenChain] at h
      have hnl : p.nextLink = none := by simpa using h
      simp [fetchRun, hnl, recordsOf]
    | cons q rs =>
      rw [tokenChain, Bool.and_eq_true] at h
      obtain ⟨h1, h2⟩ := h
      obtain ⟨nxt, hnl⟩ := Option.isSome_iff_exists.mp h1
      rw [fetchRun, hnl]
      simp only [recordsOf, List.map_cons, List.flatten_cons, List.map_append]
      have := ih false h2
      simp only [recordsOf] at this
      rw [this]
      simp [List.map_append]

/-- C4: the fetch loop sends the query parameters only on the initial
request (every step of a continuation run carries none), stops as soon as
a response has no continuation token (remaining responses are never
requested), and, over a chain of pages each carrying a token except the
last, the processed records are exactly the concatenation of all pages'
records in page order (each record passed once through the per-record
enrichment). -/
theorem c4_pagination : ∀ (α : Type) (enrich : α → α) (pages : List (Page α)),
    (∀ s ∈ fetchRun enrich false pages, s.sentParams = false) ∧
    (∀ (p : Page α) (rest : List (Page α)),
      (fetchRun enrich true (p :: rest)).head? =
        some { sentParams := true, records := p.value.map enrich }) ∧
    (∀ (first : Bool) (p : Page α) (rest : List (Page α)), p.nextLink = none →
      fetchRun enrich first (p :: rest) =
        [{ sentParams := first, records := p.value.map enrich }]) ∧
    (tokenChain pages = true →
      fetchedRecords enrich pages = ((pages.map Page.value).flatten).map enrich) := by
  intro α enrich pages
  refine ⟨fetchRun_false_params enrich pages, ?_, ?_, ?_⟩
  · intro p rest
    rw [fetchRun]
    rfl
  · intro first p rest hnl
    rw [fetchRun, hnl]
  · intro h
    exact fetchRun_chain_records enrich pages true h

def pagesW : List (Page Nat) :=
  [{ value := [1, 2], nextLink := some "link2" },
   { value := [3], nextLink := some "link3" },
   { value := [4, 5], nextLink := none }]

theorem c4_pagination_witness :
    fetchedRecords (fun n => n) pagesW = [1, 2, 3, 4, 5] ∧
    fetchRun (fun n => n) true [({ value := [7], nextLink := none } : Page Nat)] =
      [{ sentParams := true, records := [7] }] ∧
    (∀ s ∈ fetchRun (fun n => n) false pagesW, s.sentParams = false) := by
  refine ⟨?_, ?_, (c4_pagination Nat (fun n => n) pagesW).1⟩
  · have h := (c4_pagination Nat (fun n => n) pagesW).2.2.2 (by decide)
    rw [h]
    decide
  · exact (c4_pagination Nat (fun n => n) [({ value := [7], nextLink := none } : Page Nat)]).2.2.1
      true { value := [7], nextLink := none } [] rfl

/-! Body extraction (claim C5) and routing (claim C6). -/

def msgNoContentKey : Msg :=
  { id := "m-5a", subject := some "s", bodyPreview := some "preview text",
    body := some (BodyNode.dict none), sender := none, receivedDateTime := none,
    parentFolderId := none, attachments := [] }

def msgWhitespaceBody : Msg :=
  { id := "m-5b", subject := some "s", bodyPreview := none,
    body := some (BodyNode.dict (some "  hi  ")), sender := none,
    receivedDateTime := none, parentFolderId := none, attachments := [] }

/-- C5 counterexample: a structured body node that lacks the content entry
yields the empty string even though a preview is present (the claim says an
empty structured body falls back to the preview); and a non-markup body
with surrounding whitespace is trimmed rather than used as-is. -/
theorem c5_body_counterexample :
    msgNoContentKey.body = some (BodyNode.dict none) ∧
    msgNoContentKey.bodyPreview = some "preview text" ∧
    extractCleanBody (fun s => s) msgNoContentKey = "" ∧
    extractBodyRaw msgWhitespaceBody = "  hi  " ∧
    extractCleanBody (fun s => s) msgWhitespaceBody = "hi" := by
  refine ⟨rfl, rfl, by decide, rfl, by decide⟩

/-- C5 amended: extraction prefers the structured content when the body
node is an object carrying it; the preview fallback happens exactly when
the body value is absent or not an object; an object without the content
entry yields the empty string (no preview consulted); extraction is a
total function (never raises); when the extracted text starts with an
angle bracket after trimming leading whitespace the markup stripper is
applied and the result trimmed, otherwise the text is used after trimming
surrounding whitespace. -/
theorem c5_body_amended : ∀ (stripMarkup : String → String) (msg : Msg),
    (∀ c, msg.body = some (BodyNode.dict (some c)) → extractBodyRaw msg = c) ∧
    (msg.body = none ∨ msg.body = some BodyNode.nondict →
      extractBodyRaw msg = msg.bodyPreview.getD "") ∧
    (msg.body = some (BodyNode.dict none) → extractBodyRaw msg = "") ∧
    (startsWithLt (extractBodyRaw msg) = true →
      extractCleanBody stripMarkup msg = pyStrip (stripMarkup (extractBodyRaw msg))) ∧
    (startsWithLt (extractBodyRaw msg) = false →
      extractCleanBody stripMarkup msg = pyStrip (extractBodyRaw msg)) := by
  intro stripMarkup msg
  refine ⟨?_, ?_, ?_, ?_, ?_⟩
  · intro c h; simp [extractBodyRaw, h]
  · rintro (h | h) <;> simp [extractBodyRaw, h]
  · intro h; simp [extractBodyRaw, h]
  · intro h; rw [extractCleanBody, cleanBodyOf, if_pos h]
  · intro h; rw [extractCleanBody, cleanBodyOf, if_neg (by rw [h]; exact Bool.false_ne_true)]

def msgHtmlBody : Msg :=
  { id := "m-5c", subject := some "s", bodyPreview := none,
    body := some (BodyNode.dict (some "<p>hello</p>")), sender := none,
    receivedDateTime := none, parentFolderId := none, attachments := [] }

theorem c5_body_amended_witness :
    extractBodyRaw msgHtmlBody = "<p>hello</p>" ∧
    extractCleanBody (fun _ => " hello ") msgHtmlBody = "hello" ∧
    extractBodyRaw msgNoBody = "p" := by
  refine ⟨(c5_body_amended (fun _ => " hello ") msgHtmlBody).1 "<p>hello</p>" rfl, ?_, ?_⟩
  · have h := (c5_body_amended (fun _ => " hello ") msgHtmlBody).2.2.2.1 (by decide)
    rw [h]
    decide
  · exact (c5_body_amended (fun _ => " hello ") msgNoBody).2.1 (Or.inl rfl)

/-- C6: exactly one destination bucket is chosen, by scanning the lowered
subject in the fixed priority order budget, then quotation, then order
confirmation; the first keyword present in the subject whose bucket is
configured (a set, non-empty environment value) wins, and if no keyword
matches with a configured bucket the default bucket is used. -/
theorem c6_routing : ∀ (cfg : RoutingConfig) (subj : String),
    ((strContains (pyLower subj) "budget" && truthy cfg.budgetSectionGid) = true →
      chooseSection cfg subj = cfg.budgetSectionGid.getD "") ∧
    ((strContains (pyLower subj) "budget" && truthy cfg.budgetSectionGid) = false →
      (strContains (pyLower subj) "quotation" && truthy cfg.quoteSectionGid) = true →
      chooseSection cfg subj = cfg.quoteSectionGid.getD "") ∧
    ((strContains (pyLower subj) "budget" && truthy cfg.budgetSectionGid) = false →
      (strContains (pyLower subj) "quotation" && truthy cfg.quoteSectionGid) = false →
      (strContains (pyLower subj) "order confirmation" && truthy cfg.orderSectionGid) = true →
      chooseSection cfg subj = cfg.orderSectionGid.getD "") ∧
    ((strContains (pyLower subj) "budget" && truthy cfg.budgetSectionGid) = false →
      (strContains (pyLower subj) "quotation" && truthy cfg.quoteSectionGid) = false →
      (strContains (pyLower subj) "order confirmation" && truthy cfg.orderSectionGid) = false →
      chooseSection cfg subj = cfg.asanaSectionGid) := by
  intro cfg subj
  refine ⟨?_, ?_, ?_, ?_⟩
  · intro h1
    rw [chooseSection]
    rw [if_pos h1]
  · intro h1 h2
    rw [chooseSection]
    rw [if_neg (by rw [h1]; exact Bool.false_ne_true), if_pos h2]
  · intro h1 h2 h3
    rw [chooseSection]
    rw [if_neg (by rw [h1]; exact Bool.false_ne_true),
      if_neg (by rw [h2]; exact Bool.false_ne_true), if_pos h3]
  · intro h1 h2 h3
    rw [chooseSection]
    rw [if_neg (by rw [h1]; exact Bool.false_ne_true),
      if_neg (by rw [h2]; exact Bool.false_ne_true),
      if_neg (by rw [h3]; exact Bool.false_ne_true)]

def cfgBoth : RoutingConfig :=
  { budgetSectionGid := some "sec-budget", quoteSectionGid := some "sec-quote",
    orderSectionGid := none, asanaSectionGid := "sec-default" }

theorem c6_routing_witness :
    chooseSection cfgBoth "Budget and Quotation mix" = "sec-budget" ∧
    chooseSection cfgBoth "Order Confirmation #123" = "sec-default" ∧
    chooseSection cfgBoth "Q3 Budget Approval" = "sec-budget" := by
  refine ⟨(c6_routing cfgBoth "Budget and Quotation mix").1 (by decide), ?_,
    (c6_routing cfgBoth "Q3 Budget Approval").1 (by decide)⟩
  exact (c6_routing cfgBoth "Order Confirmation #123").2.2.2
    (by decide) (by decide) (by decide)

/-! Attachment policy (claims C7 and C8) and custom fields (claim C9). -/

/-- C7: an embedded-item attachment, and an attachment whose declared size
exceeds the 3 MiB ceiling, are skipped with a result independent of the
download behaviour (the download step is never reached); an HTTP 413
response during download is a skip, not a failure; any other attachment
whose download succeeds is written and relayed to the destination task. -/
theorem c7_attachment_policy : ∀ (ε : Type) (env : ProcEnv ε) (gid : String)
    (a : Attachment),
    (strEndsWith a.odataType "ItemAttachment" = true →
      processAttachment env gid a = .ok (.skippedItem, [])) ∧
    (strEndsWith a.odataType "ItemAttachment" = false → maxAttachmentSize < a.size →
      processAttachment env gid a = .ok (.skippedTooLarge, [])) ∧
    (strEndsWith a.odataType "ItemAttachment" = false → a.size ≤ maxAttachmentSize →
      env.download a = .error 413 →
      processAttachment env gid a = .ok (.skippedAfter413, [])) ∧
    (∀ u v, strEndsWith a.odataType "ItemAttachment" = false →
      a.size ≤ maxAttachmentSize →
      env.download a = .ok u → env.upload gid a = .ok v →
      processAttachment env gid a =
        .ok (.uploaded, [.write (localPathOf a), .remove (localPathOf a)])) := by
  intro ε env gid a
  refine ⟨?_, ?_, ?_, ?_⟩
  · intro h1
    rw [processAttachment, if_pos h1]
  · intro h1 h2
    rw [processAttachment, if_neg (by rw [h1]; exact Bool.false_ne_true), if_pos h2]
  · intro h1 h2 h3
    rw [processAttachment, if_neg (by rw [h1]; exact Bool.false_ne_true),
      if_neg (by omega), h3]
    rfl
  · intro u v h1 h2 h3 h4
    rw [processAttachment, if_neg (by rw [h1]; exact Bool.false_ne_true),
      if_neg (by omega), h3, h4]

def attItem : Attachment :=
  { odataType := "some.ItemAttachment", size := 10, name := "note.eml", attId := "a1" }

def attBig : Attachment :=
  { odataType := "some.fileAttachment", size := 4 * 1024 * 1024, name := "big.pdf",
    attId := "a2" }

def attSmall : Attachment :=
  { odataType := "some.fileAttachment", size := 1024 * 1024, name := "small.pdf",
    attId := "a3" }

def envAllOk : ProcEnv Unit :=
  { createTask := fun _ _ => .ok "task-1", addToSection := fun _ _ => .ok (),
    updateTask := fun _ _ _ => .ok (), download := fun _ => .ok (),
    upload := fun _ _ => .ok () }

def env413 : ProcEnv Unit :=
  { envAllOk with download := fun _ => .error 413 }

def envUploadFail : ProcEnv Unit :=
  { envAllOk with upload := fun _ _ => .error () }

theorem c7_attachment_policy_witness :
    processAttachment envAllOk "task-1" attItem = .ok (.skippedItem, []) ∧
    processAttachment envAllOk "task-1" attBig = .ok (.skippedTooLarge, []) ∧
    processAttachment env413 "task-1" attSmall = .ok (.skippedAfter413, []) ∧
    processAttachment envAllOk "task-1" attSmall =
      .ok (.uploaded, [.write (localPathOf attSmall), .remove (localPathOf attSmall)]) := by
  refine ⟨(c7_attachment_policy Unit envAllOk "task-1" attItem).1 (by decide),
    (c7_attachment_policy Unit envAllOk "task-1" attBig).2.1 (by decide) (by decide),
    (c7_attachment_policy Unit env413 "task-1" attSmall).2.2.1 (by decide) (by decide) rfl,
    (c7_attachment_policy Unit envAllOk "task-1" attSmall).2.2.2 () ()
      (by decide) (by decide) rfl rfl⟩

/-- C8: for an attachment that reaches the relay step (not an item
attachment, within the size ceiling, download succeeded), the bytes are
written to the temp file and the temp file is removed afterwards whether
the upload succeeds or fails; replaying that trace leaves no file behind;
and an upload failure is non-fatal: the attachment loop still returns
successfully and continues with the remaining attachments. -/
theorem c8_temp_cleanup : ∀ (ε : Type) (env : ProcEnv ε) (gid : String)
    (a : Attachment),
    strEndsWith a.odataType "ItemAttachment" = false → a.size ≤ maxAttachmentSize →
    ∀ u, env.download a = .ok u →
      ((∀ v, env.upload gid a = .ok v →
        processAttachment env gid a =
          .ok (.uploaded, [.write (localPathOf a), .remove (localPathOf a)])) ∧
       (∀ e, env.upload gid a = .error e →
        processAttachment env gid a =
          .ok (.uploadFailed, [.write (localPathOf a), .remove (localPathOf a)])) ∧
       applyFs [] [FsEvent.write (localPathOf a), FsEvent.remove (localPathOf a)] = [] ∧
       (∀ e rest acts tr, env.upload gid a = .error e →
        processAttachments env gid rest = .ok (acts, tr) →
        processAttachments env gid (a :: rest) =
          .ok ((a.name, AttachmentAction.uploadFailed) :: acts,
            [FsEvent.write (localPathOf a), FsEvent.remove (localPathOf a)] ++ tr))) := by
  intro ε env gid a h1 h2 u h3
  have hfail : ∀ e, env.upload gid a = .error e →
      processAttachment env gid a =
        .ok (.uploadFailed, [.write (localPathOf a), .remove (localPathOf a)]) := by
    intro e h4
    rw [processAttachment, if_neg (by rw [h1]; exact Bool.false_ne_true),
      if_neg (by omega), h3, h4]
  refine ⟨?_, hfail, ?_, ?_⟩
  · intro v h4
    rw [processAttachment, if_neg (by rw [h1]; exact Bool.false_ne_true),
      if_neg (by omega), h3, h4]
  · simp [applyFs]
  · intro e rest acts tr h4 h5
    rw [processAttachments, hfail e h4, h5]

theorem c8_temp_cleanup_witness :
    processAttachment envUploadFail "task-1" attSmall =
      .ok (.uploadFailed, [.write (localPathOf attSmall), .remove (localPathOf attSmall)]) ∧
    applyFs [] [FsEvent.write (localPathOf attSmall), FsEvent.remove (localPathOf attSmall)] = [] ∧
    processAttachments envUploadFail "task-1" [attSmall] =
      .ok ([(attSmall.name, AttachmentAction.uploadFailed)],
        [FsEvent.write (localPathOf attSmall), FsEvent.remove (localPathOf attSmall)] ++ []) := by
  have h := c8_temp_cleanup Unit envUploadFail "task-1" attSmall
    (by decide) (by decide) () rfl
  exact ⟨h.2.1 () rfl, h.2.2.1, h.2.2.2 () [] [] [] rfl rfl⟩

/-- C9: once the destination task has been created, a non-numeric
job-number tag makes processing fail with the invalid-job-number error
(Python int() raising ValueError); and every successful processing run
carries in its outcome the two custom-field values that the update call
received: the location as free text and the job number parsed as an
integer from the routing tag. -/
theorem c9_custom_fields : ∀ (ε : Type) (env : ProcEnv ε) (cfg : RoutingConfig)
    (stripMarkup : String → String) (msg : Msg) (loc job : String),
    (∀ gid, (∀ n b, env.createTask n b = .ok gid) → pyInt job = none →
      processMessage env cfg stripMarkup msg loc job =
        .error (ProcError.invalidJobNumber job)) ∧
    (∀ out, processMessage env cfg stripMarkup msg loc job = .ok out →
      pyInt job = some out.jobNumber ∧ out.location = loc ∧
      ∃ u, env.updateTask out.taskGid loc out.jobNumber = .ok u) := by
  intro ε env cfg stripMarkup msg loc job
  constructor
  · intro gid hok hnone
    simp only [processMessage, hok, hnone]
  · intro out hout
    simp only [processMessage] at hout
    split at hout
    · exact Except.noConfusion hout
    · split at hout
      · exact Except.noConfusion hout
      · split at hout
        · exact Except.noConfusion hout
        · split at hout
          · exact Except.noConfusion hout
          · injection hout with hout
            subst hout
            exact ⟨by assumption, rfl, _, by assumption⟩

def outSample : ProcOutcome :=
  { taskGid := "task-1",
    notes := "**Location:** Nova\n**Job #:** 2411001\n**From:** a@b.c\n**Received:** 2024-01-01\n\ntext",
    sectionGid := "sec-default", sectionAddOk := true, location := "Nova",
    jobNumber := 2411001, attachmentResults := [], fsTrace := [] }

theorem c9_custom_fields_witness :
    processMessage envAllOk cfgBoth (fun x => x) msgOkBody "Nova" "abc" =
      .error (ProcError.invalidJobNumber "abc") ∧
    (pyInt "2411001" = some outSample.jobNumber ∧ outSample.location = "Nova" ∧
      ∃ u, envAllOk.updateTask outSample.taskGid "Nova" outSample.jobNumber = .ok u) := by
  refine ⟨(c9_custom_fields Unit envAllOk cfgBoth (fun x => x) msgOkBody "Nova" "abc").1
      "task-1" (fun n b => rfl) (by decide),
    (c9_custom_fields Unit envAllOk cfgBoth (fun x => x) msgOkBody "Nova" "2411001").2
      outSample rfl⟩

end EmailMigration
